import Mathlib

/-
  Verification of the dax86 instruction-execution core.

  Shallow embedding of the execution core of a small x86 emulator:
  `src/instructions.c` (instruction handlers, dispatch table),
  `src/emulator.h` (machine state), and the near-conditional-jump
  source file.  Machine 32-bit words are modelled as `Nat` with
  explicit reduction modulo 2^32 wherever the C code's `uint32_t`
  arithmetic wraps; `uint64_t` intermediates are reduced modulo 2^64.

  The accessor/flag library (`emulator_functions.c`) and the ModR/M
  decoder (`modrm.c`) are declared and called by the code in scope but
  their sources are absent from src/; the definitions below that stand
  for them are marked "Modelled from the spec:".
-/

/- Machine word bounds.  `uint32_t` values live below `UINT32_LIMIT`,
   `uint64_t` intermediates below `UINT64_LIMIT`. -/
def UINT32_LIMIT : Nat := 2 ^ 32

def UINT64_LIMIT : Nat := 2 ^ 64

/- Machine State, from `emulator.h`.  The fields exercised by the
   instruction subset in scope: `eflags`, the eight general-purpose
   registers (array indexed by the Register enum, modelled as a total
   function on indices), the byte-addressable `memory`, and `eip`.
   Segment/control registers, gdtr and exception are never read nor
   written by the handlers in scope and are omitted from the record;
   register index 4 is ESP and index 5 is EBP, per the enum order
   EAX, ECX, EDX, EBX, ESP, EBP, ESI, EDI. -/
structure Emulator where
  eflags : Nat
  registers : Nat → Nat
  memory : Nat → Nat
  eip : Nat

/- Register enum values used by name in the handlers. -/
def ESP : Nat := 4

def EBP : Nat := 5

/-- Modelled from the spec: register read accessor (`get_register32` of
`emulator_functions.c`, absent from src/): reads a 32-bit register by
index. -/
def get_register32 (emu : Emulator) (reg : Nat) : Nat :=
  emu.registers reg

/-- Modelled from the spec: register write accessor (`set_register32` of
`emulator_functions.c`, absent from src/): stores a value into a 32-bit
register by index; the stored value wraps as `uint32_t`. -/
def set_register32 (emu : Emulator) (reg : Nat) (value : Nat) : Emulator :=
  { emu with registers := fun r => if r = reg then value % UINT32_LIMIT else emu.registers r }

/-- Modelled from the spec: byte read from the linear memory buffer
(`get_memory8` of `emulator_functions.c`, absent from src/); the address
is a `uint32_t` and the cell holds one byte. -/
def get_memory8 (emu : Emulator) (address : Nat) : Nat :=
  emu.memory (address % UINT32_LIMIT) % 256

/-- Modelled from the spec: byte write to the linear memory buffer
(`set_memory8` of `emulator_functions.c`, absent from src/). -/
def set_memory8 (emu : Emulator) (address : Nat) (value : Nat) : Emulator :=
  { emu with memory := fun a => if a = address % UINT32_LIMIT then value % 256 else emu.memory a }

/-- Modelled from the spec: little-endian 32-bit read composed of four
byte reads (`get_memory32`, absent from src/). -/
def get_memory32 (emu : Emulator) (address : Nat) : Nat :=
  get_memory8 emu address
    + 256 * get_memory8 emu (address + 1)
    + 65536 * get_memory8 emu (address + 2)
    + 16777216 * get_memory8 emu (address + 3)

/-- Modelled from the spec: little-endian 32-bit write composed of four
byte writes (`set_memory32`, absent from src/). -/
def set_memory32 (emu : Emulator) (address : Nat) (value : Nat) : Emulator :=
  set_memory8
    (set_memory8
      (set_memory8
        (set_memory8 emu address value)
        (address + 1) (value / 256))
      (address + 2) (value / 65536))
    (address + 3) (value / 16777216)

/-- Modelled from the spec: instruction-stream byte fetch at a given
offset from the current `eip`, without moving `eip` (`get_code8`,
absent from src/). -/
def get_code8 (emu : Emulator) (index : Nat) : Nat :=
  get_memory8 emu (emu.eip + index)

/-- Modelled from the spec: sign-extending instruction-stream byte fetch
(`get_sign_code8`, absent from src/): the byte reinterpreted as a signed
8-bit integer. -/
def get_sign_code8 (emu : Emulator) (index : Nat) : Int :=
  let b := get_code8 emu index
  if b < 128 then (b : Int) else (b : Int) - 256

/-- Modelled from the spec: little-endian 32-bit instruction-stream fetch
at a given offset from the current `eip` (`get_code32`, absent from
src/). -/
def get_code32 (emu : Emulator) (index : Nat) : Nat :=
  get_memory32 emu (emu.eip + index)

/-- Modelled from the spec: sign-extending 32-bit instruction-stream
fetch (`get_sign_code32`, absent from src/): the word reinterpreted as a
signed 32-bit integer. -/
def get_sign_code32 (emu : Emulator) (index : Nat) : Int :=
  let v := get_code32 emu index
  if v < 2 ^ 31 then (v : Int) else (v : Int) - UINT32_LIMIT

/- Flag masks, per the eflags bit layout in `emulator.h`:
   carry bit 0, zero bit 6, sign bit 7, overflow bit 11. -/
def CARRY_FLAG : Nat := 2 ^ 0

def ZERO_FLAG : Nat := 2 ^ 6

def SIGN_FLAG : Nat := 2 ^ 7

def OVERFLOW_FLAG : Nat := 2 ^ 11

/-- Modelled from the spec: set or clear a single eflags bit, leaving
every other bit unmodified (the set_carry_flag / set_zero_flag /
set_sign_flag / set_overflow_flag family of `emulator_functions.c`,
absent from src/).  Setting ors the mask in; clearing ands with the
32-bit complement of the mask. -/
def set_flag_nat (x : Nat) (mask : Nat) (b : Bool) : Nat :=
  if b then x ||| mask else x &&& ((UINT32_LIMIT - 1) ^^^ mask)

/-- Modelled from the spec: `is_carry` (absent from src/), reading eflags
bit 0. -/
def is_carry (emu : Emulator) : Bool :=
  emu.eflags.testBit 0

/-- Modelled from the spec: `is_zero` (absent from src/), reading eflags
bit 6. -/
def is_zero (emu : Emulator) : Bool :=
  emu.eflags.testBit 6

/-- Modelled from the spec: `is_sign` (absent from src/), reading eflags
bit 7. -/
def is_sign (emu : Emulator) : Bool :=
  emu.eflags.testBit 7

/-- Modelled from the spec: `is_overflow` (absent from src/), reading
eflags bit 11. -/
def is_overflow (emu : Emulator) : Bool :=
  emu.eflags.testBit 11

/-- Modelled from the spec: `update_eflags_sub` of
`emulator_functions.c`, absent from src/.  Given the two operands of a
subtraction and the result computed at 64-bit precision (the callers in
`instructions.c` pass `(uint64_t)v1 - (uint64_t)v2`), derives carry
(borrow out of bit 31, i.e. high half of the wide result non-zero),
zero (truncated result is 0), sign (bit 31 of the truncated result) and
overflow (operand signs differ and the truncated result's sign differs
from operand1's), storing each in its eflags bit and leaving all other
bits unmodified. -/
def update_eflags_sub (emu : Emulator) (v1 v2 : Nat) (result : Nat) : Emulator :=
  let sign1 := v1.testBit 31
  let sign2 := v2.testBit 31
  let signr := (result % UINT32_LIMIT).testBit 31
  let f1 := set_flag_nat emu.eflags CARRY_FLAG (result >>> 32 != 0)
  let f2 := set_flag_nat f1 ZERO_FLAG (result % UINT32_LIMIT == 0)
  let f3 := set_flag_nat f2 SIGN_FLAG signr
  let f4 := set_flag_nat f3 OVERFLOW_FLAG (sign1 != sign2 && sign1 != signr)
  { emu with eflags := f4 }

/- ModR/M decode result, from the spec's data model: `mod` (top 2
   bits), `opcode`/reg (middle 3 bits), `rm` (bottom 3 bits), plus the
   decoded displacement (0 when the mode carries none). -/
structure ModRM where
  mod : Nat
  opcode : Nat
  rm : Nat
  disp : Int

/-- Modelled from the spec: `parse_modrm` of `modrm.c`, absent from
src/.  Splits the ModR/M byte at `eip` into mod / reg-opcode / rm and
consumes exactly the displacement bytes selected by `mod` (none for
mod 0 or mod 3, one sign-extended byte for mod 1, four bytes for
mod 2).  The callers in `instructions.c` read the following immediate
at offset 0 immediately after this returns and add no ModR/M byte
count themselves, so the decoder advances `eip` past every byte it
consumed (SIB decoding is an extension point the instruction subset in
scope does not require and is not modelled). -/
def parse_modrm (emu : Emulator) : ModRM × Emulator :=
  let code := get_code8 emu 0
  let md := code / 64
  let op := code / 8 % 8
  let rm := code % 8
  let emu1 : Emulator := { emu with eip := (emu.eip + 1) % UINT32_LIMIT }
  if md = 1 then
    (⟨md, op, rm, get_sign_code8 emu1 0⟩,
      { emu1 with eip := (emu1.eip + 1) % UINT32_LIMIT })
  else if md = 2 then
    (⟨md, op, rm, get_sign_code32 emu1 0⟩,
      { emu1 with eip := (emu1.eip + 4) % UINT32_LIMIT })
  else
    (⟨md, op, rm, 0⟩, emu1)

/-- Modelled from the spec: effective-address computation for a memory
ModR/M operand (base register named by `rm` plus the decoded
displacement, wrapping as `uint32_t`). -/
def calc_memory_address (emu : Emulator) (m : ModRM) : Nat :=
  (((get_register32 emu m.rm : Int) + m.disp) % (UINT32_LIMIT : Int)).toNat

/-- Modelled from the spec: `get_rm32` (absent from src/): reads the
effective operand — the register named by `rm` under direct-register
addressing (mod 3), the memory word at the computed address
otherwise. -/
def get_rm32 (emu : Emulator) (m : ModRM) : Nat :=
  if m.mod = 3 then get_register32 emu m.rm
  else get_memory32 emu (calc_memory_address emu m)

/-- Modelled from the spec: `set_rm32` (absent from src/): writes the
effective operand selected by the ModR/M decode. -/
def set_rm32 (emu : Emulator) (m : ModRM) (value : Nat) : Emulator :=
  if m.mod = 3 then set_register32 emu m.rm value
  else set_memory32 emu (calc_memory_address emu m) value

/-- Modelled from the spec: `get_r32` (absent from src/): reads the
register named by the ModR/M reg field. -/
def get_r32 (emu : Emulator) (m : ModRM) : Nat :=
  get_register32 emu m.opcode

/-- Modelled from the spec: `set_r32` (absent from src/): writes the
register named by the ModR/M reg field. -/
def set_r32 (emu : Emulator) (m : ModRM) (value : Nat) : Emulator :=
  set_register32 emu m.opcode value

/-- Modelled from the spec: `push32` (absent from src/): decrements ESP
by 4 (wrapping as `uint32_t`), then stores the 32-bit value at the new
ESP. -/
def push32 (emu : Emulator) (value : Nat) : Emulator :=
  let address := (get_register32 emu ESP + (UINT32_LIMIT - 4)) % UINT32_LIMIT
  set_memory32 (set_register32 emu ESP address) address value

/-- Modelled from the spec: `pop32` (absent from src/): loads the 32-bit
value at ESP, then increments ESP by 4 (wrapping as `uint32_t`);
returns the value alongside the updated state. -/
def pop32 (emu : Emulator) : Nat × Emulator :=
  let address := get_register32 emu ESP
  let value := get_memory32 emu address
  (value, set_register32 emu ESP (address + 4))

/- `emu->eip += d` where `d` is a C `int` expression: the signed
   addend wraps into the `uint32_t` instruction pointer. -/
def eip_add_int (emu : Emulator) (d : Int) : Emulator :=
  { emu with eip := (((emu.eip : Int) + d) % (UINT32_LIMIT : Int)).toNat }

/- `(uint32_t)(int32_t)x` conversion of a sign-extended fetch. -/
def int_to_uint32 (x : Int) : Nat :=
  (x % (UINT32_LIMIT : Int)).toNat

/- `uint64_t` subtraction `(uint64_t)a - (uint64_t)b` as the handlers
   compute the wide result passed to `update_eflags_sub`. -/
def usub64 (a b : Nat) : Nat :=
  (a + (UINT64_LIMIT - b % UINT64_LIMIT)) % UINT64_LIMIT

/- ---------- Instruction handlers, from instructions.c ---------- -/

/- short_jump (EB): eip += sign-extended offset byte + 2. -/
def short_jump (emu : Emulator) : Emulator :=
  let offset := get_sign_code8 emu 1
  eip_add_int emu (offset + 2)

/- near_jump (E9): eip += sign-extended 32-bit offset + 5. -/
def near_jump (emu : Emulator) : Emulator :=
  let diff := get_sign_code32 emu 1
  eip_add_int emu (diff + 5)

/- mov_r32_imm32 (B8+reg): register named in the opcode byte gets the
   32-bit immediate; eip += 5. -/
def mov_r32_imm32 (emu : Emulator) : Emulator :=
  let reg := (get_code8 emu 0 + (256 - 0xB8)) % 256
  let value := get_code32 emu 1
  let emu1 : Emulator :=
    { emu with registers := fun r => if r = reg then value % UINT32_LIMIT else emu.registers r }
  { emu1 with eip := (emu1.eip + 5) % UINT32_LIMIT }

/- mov_rm32_imm32 (C7): eip += 1 past the opcode, ModR/M decode, then
   the 32-bit immediate is fetched and eip += 4. -/
def mov_rm32_imm32 (emu : Emulator) : Emulator :=
  let emu1 : Emulator := { emu with eip := (emu.eip + 1) % UINT32_LIMIT }
  let p := parse_modrm emu1
  let value := get_code32 p.2 0
  let emu3 : Emulator := { p.2 with eip := (p.2.eip + 4) % UINT32_LIMIT }
  set_rm32 emu3 p.1 value

/- mov_rm32_r32 (89). -/
def mov_rm32_r32 (emu : Emulator) : Emulator :=
  let emu1 : Emulator := { emu with eip := (emu.eip + 1) % UINT32_LIMIT }
  let p := parse_modrm emu1
  let r32 := get_r32 p.2 p.1
  set_rm32 p.2 p.1 r32

/- mov_r32_rm32 (8B). -/
def mov_r32_rm32 (emu : Emulator) : Emulator :=
  let emu1 : Emulator := { emu with eip := (emu.eip + 1) % UINT32_LIMIT }
  let p := parse_modrm emu1
  let rm32 := get_rm32 p.2 p.1
  set_r32 p.2 p.1 rm32

/- add_rm32_r32 (01): operand += register; no flag update. -/
def add_rm32_r32 (emu : Emulator) : Emulator :=
  let emu1 : Emulator := { emu with eip := (emu.eip + 1) % UINT32_LIMIT }
  let p := parse_modrm emu1
  let r32 := get_r32 p.2 p.1
  let rm32 := get_rm32 p.2 p.1
  set_rm32 p.2 p.1 (r32 + rm32)

/- add_rm32_imm8 (83 /0): operand += sign-extended imm8; eip += 1 for
   the immediate; no flag update. -/
def add_rm32_imm8 (emu : Emulator) (m : ModRM) : Emulator :=
  let rm32 := get_rm32 emu m
  let imm8 := int_to_uint32 (get_sign_code8 emu 0)
  let emu1 : Emulator := { emu with eip := (emu.eip + 1) % UINT32_LIMIT }
  set_rm32 emu1 m (rm32 + imm8)

/- sub_rm32_imm8 (83 /5): operand -= sign-extended imm8 with the wide
   result driving the flag update. -/
def sub_rm32_imm8 (emu : Emulator) (m : ModRM) : Emulator :=
  let rm32 := get_rm32 emu m
  let imm8 := int_to_uint32 (get_sign_code8 emu 0)
  let emu1 : Emulator := { emu with eip := (emu.eip + 1) % UINT32_LIMIT }
  let result := usub64 rm32 imm8
  let emu2 := set_rm32 emu1 m result
  update_eflags_sub emu2 rm32 imm8 result

/- cmp_rm32_imm8 (83 /7): same subtraction as 83 /5, result discarded,
   flags updated. -/
def cmp_rm32_imm8 (emu : Emulator) (m : ModRM) : Emulator :=
  let rm32 := get_rm32 emu m
  let imm8 := int_to_uint32 (get_sign_code8 emu 0)
  let emu1 : Emulator := { emu with eip := (emu.eip + 1) % UINT32_LIMIT }
  let result := usub64 rm32 imm8
  update_eflags_sub emu1 rm32 imm8 result

/- cmp_r32_rm32 (3B). -/
def cmp_r32_rm32 (emu : Emulator) : Emulator :=
  let emu1 : Emulator := { emu with eip := (emu.eip + 1) % UINT32_LIMIT }
  let p := parse_modrm emu1
  let r32 := get_r32 p.2 p.1
  let rm32 := get_rm32 p.2 p.1
  let result := usub64 r32 rm32
  update_eflags_sub p.2 r32 rm32 result

/- Fatal decode errors: the C code prints the group opcode together
   with the ModR/M sub-opcode and calls exit(1). -/
inductive EmuErr where
  | notImplementedSubOp (op : Nat) (subop : Nat)
deriving DecidableEq

/- code_83: second-level dispatch on the ModR/M reg/opcode field. -/
def code_83 (emu : Emulator) : Except EmuErr Emulator :=
  let emu1 : Emulator := { emu with eip := (emu.eip + 1) % UINT32_LIMIT }
  let p := parse_modrm emu1
  if p.1.opcode = 0 then Except.ok (add_rm32_imm8 p.2 p.1)
  else if p.1.opcode = 5 then Except.ok (sub_rm32_imm8 p.2 p.1)
  else if p.1.opcode = 7 then Except.ok (cmp_rm32_imm8 p.2 p.1)
  else Except.error (EmuErr.notImplementedSubOp 0x83 p.1.opcode)

/- inc_rm32 (FF /0): operand += 1; no eip change of its own. -/
def inc_rm32 (emu : Emulator) (m : ModRM) : Emulator :=
  let value := get_rm32 emu m
  set_rm32 emu m (value + 1)

/- code_ff: second-level dispatch on the ModR/M reg/opcode field. -/
def code_ff (emu : Emulator) : Except EmuErr Emulator :=
  let emu1 : Emulator := { emu with eip := (emu.eip + 1) % UINT32_LIMIT }
  let p := parse_modrm emu1
  if p.1.opcode = 0 then Except.ok (inc_rm32 p.2 p.1)
  else Except.error (EmuErr.notImplementedSubOp 0xFF p.1.opcode)

/- push_r32 (50+reg). -/
def push_r32 (emu : Emulator) : Emulator :=
  let reg := (get_code8 emu 0 + (256 - 0x50)) % 256
  let emu1 := push32 emu (get_register32 emu reg)
  { emu1 with eip := (emu1.eip + 1) % UINT32_LIMIT }

/- push_imm32 (68). -/
def push_imm32 (emu : Emulator) : Emulator :=
  let value := get_code32 emu 1
  let emu1 := push32 emu value
  { emu1 with eip := (emu1.eip + 5) % UINT32_LIMIT }

/- push_imm8 (6A): the 8-bit immediate is zero-extended. -/
def push_imm8 (emu : Emulator) : Emulator :=
  let value := get_code8 emu 1
  let emu1 := push32 emu value
  { emu1 with eip := (emu1.eip + 2) % UINT32_LIMIT }

/- pop_r32 (58+reg). -/
def pop_r32 (emu : Emulator) : Emulator :=
  let reg := (get_code8 emu 0 + (256 - 0x58)) % 256
  let p := pop32 emu
  let emu1 := set_register32 p.2 reg p.1
  { emu1 with eip := (emu1.eip + 1) % UINT32_LIMIT }

/- call_rel32 (E8): pushes eip + 5 (the address following the call),
   then eip += offset + 5. -/
def call_rel32 (emu : Emulator) : Emulator :=
  let offset := get_sign_code32 emu 1
  let emu1 := push32 emu ((emu.eip + 5) % UINT32_LIMIT)
  eip_add_int emu1 (offset + 5)

/- ret (C3): pops the return address into eip. -/
def ret (emu : Emulator) : Emulator :=
  let p := pop32 emu
  { p.2 with eip := p.1 }

/- leave (C9): ESP gets EBP, then EBP is popped. -/
def leave (emu : Emulator) : Emulator :=
  let ebp_val := get_register32 emu EBP
  let emu1 := set_register32 emu ESP ebp_val
  let p := pop32 emu1
  let emu2 := set_register32 p.2 EBP p.1
  { emu2 with eip := (emu2.eip + 1) % UINT32_LIMIT }

/- Short conditional jumps, expansion of the DEFINE_JX macro for
   flags c, z, s, o, plus jl and jle. -/
def jc (emu : Emulator) : Emulator :=
  let diff := if is_carry emu then get_sign_code8 emu 1 else 0
  eip_add_int emu (diff + 2)

def jnc (emu : Emulator) : Emulator :=
  let diff := if is_carry emu then 0 else get_sign_code8 emu 1
  eip_add_int emu (diff + 2)

def jz (emu : Emulator) : Emulator :=
  let diff := if is_zero emu then get_sign_code8 emu 1 else 0
  eip_add_int emu (diff + 2)

def jnz (emu : Emulator) : Emulator :=
  let diff := if is_zero emu then 0 else get_sign_code8 emu 1
  eip_add_int emu (diff + 2)

def js (emu : Emulator) : Emulator :=
  let diff := if is_sign emu then get_sign_code8 emu 1 else 0
  eip_add_int emu (diff + 2)

def jns (emu : Emulator) : Emulator :=
  let diff := if is_sign emu then 0 else get_sign_code8 emu 1
  eip_add_int emu (diff + 2)

def jo (emu : Emulator) : Emulator :=
  let diff := if is_overflow emu then get_sign_code8 emu 1 else 0
  eip_add_int emu (diff + 2)

def jno (emu : Emulator) : Emulator :=
  let diff := if is_overflow emu then 0 else get_sign_code8 emu 1
  eip_add_int emu (diff + 2)

def jl (emu : Emulator) : Emulator :=
  let diff := if is_sign emu != is_overflow emu then get_sign_code8 emu 1 else 0
  eip_add_int emu (diff + 2)

def jle (emu : Emulator) : Emulator :=
  let diff := if is_zero emu || (is_sign emu != is_overflow emu) then get_sign_code8 emu 1 else 0
  eip_add_int emu (diff + 2)

/- Near conditional jumps (0F-prefixed, 6 bytes), expansion of the
   DEFINE_NEAR_JX macro for flags c and z, plus jna32/ja32/jg32. -/
def jc32 (emu : Emulator) : Emulator :=
  let diff := if is_carry emu then get_sign_code32 emu 2 else 0
  eip_add_int emu (diff + 6)

def jnc32 (emu : Emulator) : Emulator :=
  let diff := if is_carry emu then 0 else get_sign_code32 emu 2
  eip_add_int emu (diff + 6)

def jz32 (emu : Emulator) : Emulator :=
  let diff := if is_zero emu then get_sign_code32 emu 2 else 0
  eip_add_int emu (diff + 6)

def jnz32 (emu : Emulator) : Emulator :=
  let diff := if is_zero emu then 0 else get_sign_code32 emu 2
  eip_add_int emu (diff + 6)

def jna32 (emu : Emulator) : Emulator :=
  let diff := if is_carry emu || is_zero emu then get_sign_code32 emu 2 else 0
  eip_add_int emu (diff + 6)

def ja32 (emu : Emulator) : Emulator :=
  let diff := if !is_carry emu && !is_zero emu then get_sign_code32 emu 2 else 0
  eip_add_int emu (diff + 6)

def jg32 (emu : Emulator) : Emulator :=
  let diff := if !is_zero emu && (is_sign emu == is_overflow emu) then get_sign_code32 emu 2 else 0
  eip_add_int emu (diff + 6)

/- ---------- Dispatch ---------- -/

/- Instruction kinds bound by the dispatch table (one per handler
   bound in init_instructions); the table maps an opcode byte to a kind
   and exec_instruction maps the kind to its handler. -/
inductive InstrKind where
  | i_add_rm32_r32
  | i_cmp_r32_rm32
  | i_push_r32
  | i_pop_r32
  | i_push_imm32
  | i_push_imm8
  | i_jo
  | i_jno
  | i_jc
  | i_jnc
  | i_jz
  | i_jnz
  | i_js
  | i_jns
  | i_jl
  | i_jle
  | i_mov_r32_imm32
  | i_code_83
  | i_mov_rm32_r32
  | i_mov_r32_rm32
  | i_mov_rm32_imm32
  | i_near_jump
  | i_short_jump
  | i_code_ff
  | i_ret
  | i_call_rel32
  | i_leave
deriving DecidableEq

/- The dispatch table built by init_instructions: every entry starts
   empty (memset 0) and the bindings below mirror the assignments and
   the three 8-register loops of instructions.c. -/
def init_instructions (op : Nat) : Option InstrKind :=
  if op = 0x01 then some InstrKind.i_add_rm32_r32
  else if op = 0x3B then some InstrKind.i_cmp_r32_rm32
  else if 0x50 ≤ op ∧ op ≤ 0x57 then some InstrKind.i_push_r32
  else if 0x58 ≤ op ∧ op ≤ 0x5F then some InstrKind.i_pop_r32
  else if op = 0x68 then some InstrKind.i_push_imm32
  else if op = 0x6A then some InstrKind.i_push_imm8
  else if op = 0x70 then some InstrKind.i_jo
  else if op = 0x71 then some InstrKind.i_jno
  else if op = 0x72 then some InstrKind.i_jc
  else if op = 0x73 then some InstrKind.i_jnc
  else if op = 0x74 then some InstrKind.i_jz
  else if op = 0x75 then some InstrKind.i_jnz
  else if op = 0x78 then some InstrKind.i_js
  else if op = 0x79 then some InstrKind.i_jns
  else if op = 0x7C then some InstrKind.i_jl
  else if op = 0x7E then some InstrKind.i_jle
  else if 0xB8 ≤ op ∧ op ≤ 0xBF then some InstrKind.i_mov_r32_imm32
  else if op = 0x83 then some InstrKind.i_code_83
  else if op = 0x89 then some InstrKind.i_mov_rm32_r32
  else if op = 0x8B then some InstrKind.i_mov_r32_rm32
  else if op = 0xC7 then some InstrKind.i_mov_rm32_imm32
  else if op = 0xE9 then some InstrKind.i_near_jump
  else if op = 0xEB then some InstrKind.i_short_jump
  else if op = 0xFF then some InstrKind.i_code_ff
  else if op = 0xC3 then some InstrKind.i_ret
  else if op = 0xE8 then some InstrKind.i_call_rel32
  else if op = 0xC9 then some InstrKind.i_leave
  else none

/- Each bound instruction kind executes its handler; the pure handlers
   never fail, the two group opcodes may report an unimplemented
   sub-opcode. -/
def exec_instruction (k : InstrKind) (emu : Emulator) : Except EmuErr Emulator :=
  match k with
  | InstrKind.i_add_rm32_r32 => Except.ok (add_rm32_r32 emu)
  | InstrKind.i_cmp_r32_rm32 => Except.ok (cmp_r32_rm32 emu)
  | InstrKind.i_push_r32 => Except.ok (push_r32 emu)
  | InstrKind.i_pop_r32 => Except.ok (pop_r32 emu)
  | InstrKind.i_push_imm32 => Except.ok (push_imm32 emu)
  | InstrKind.i_push_imm8 => Except.ok (push_imm8 emu)
  | InstrKind.i_jo => Except.ok (jo emu)
  | InstrKind.i_jno => Except.ok (jno emu)
  | InstrKind.i_jc => Except.ok (jc emu)
  | InstrKind.i_jnc => Except.ok (jnc emu)
  | InstrKind.i_jz => Except.ok (jz emu)
  | InstrKind.i_jnz => Except.ok (jnz emu)
  | InstrKind.i_js => Except.ok (js emu)
  | InstrKind.i_jns => Except.ok (jns emu)
  | InstrKind.i_jl => Except.ok (jl emu)
  | InstrKind.i_jle => Except.ok (jle emu)
  | InstrKind.i_mov_r32_imm32 => Except.ok (mov_r32_imm32 emu)
  | InstrKind.i_code_83 => code_83 emu
  | InstrKind.i_mov_rm32_r32 => Except.ok (mov_rm32_r32 emu)
  | InstrKind.i_mov_r32_rm32 => Except.ok (mov_r32_rm32 emu)
  | InstrKind.i_mov_rm32_imm32 => Except.ok (mov_rm32_imm32 emu)
  | InstrKind.i_near_jump => Except.ok (near_jump emu)
  | InstrKind.i_short_jump => Except.ok (short_jump emu)
  | InstrKind.i_code_ff => code_ff emu
  | InstrKind.i_ret => Except.ok (ret emu)
  | InstrKind.i_call_rel32 => Except.ok (call_rel32 emu)
  | InstrKind.i_leave => Except.ok (leave emu)

/- Near conditional jump kinds reachable through the 0x0F prefix. -/
inductive NearJumpKind where
  | n_jc32
  | n_jnc32
  | n_jz32
  | n_jnz32
  | n_jna32
  | n_ja32
  | n_jg32
deriving DecidableEq

/-- Modelled from the spec: the 0x0F-prefix dispatch on the second
opcode byte (the dispatch code is absent from src/); the bindings
follow the spec's §6 second-byte range 0x82–0x87 and 0x8F and the
opcode comments of the near-conditional-jump source file (0F 82 jc32,
0F 83 jnc32, 0F 84 jz32, 0F 85 jnz32, 0F 86 jna32, 0F 87 ja32,
0F 8F jg32). -/
def instructions_0f (op2 : Nat) : Option NearJumpKind :=
  if op2 = 0x82 then some NearJumpKind.n_jc32
  else if op2 = 0x83 then some NearJumpKind.n_jnc32
  else if op2 = 0x84 then some NearJumpKind.n_jz32
  else if op2 = 0x85 then some NearJumpKind.n_jnz32
  else if op2 = 0x86 then some NearJumpKind.n_jna32
  else if op2 = 0x87 then some NearJumpKind.n_ja32
  else if op2 = 0x8F then some NearJumpKind.n_jg32
  else none

def exec_near_jump (k : NearJumpKind) (emu : Emulator) : Emulator :=
  match k with
  | NearJumpKind.n_jc32 => jc32 emu
  | NearJumpKind.n_jnc32 => jnc32 emu
  | NearJumpKind.n_jz32 => jz32 emu
  | NearJumpKind.n_jnz32 => jnz32 emu
  | NearJumpKind.n_jna32 => jna32 emu
  | NearJumpKind.n_ja32 => ja32 emu
  | NearJumpKind.n_jg32 => jg32 emu

/- ---------- Helper lemmas ---------- -/

/- Total encoded size of a ModR/M byte and its displacement, as a
   function of the byte: mod 1 adds one displacement byte, mod 2 adds
   four, mod 0 and mod 3 add none. -/
def modrm_length (code : Nat) : Nat :=
  if code / 64 = 1 then 2 else if code / 64 = 2 then 5 else 1

theorem set_register32_eip (emu : Emulator) (reg v : Nat) :
    (set_register32 emu reg v).eip = emu.eip := rfl

theorem set_register32_eflags (emu : Emulator) (reg v : Nat) :
    (set_register32 emu reg v).eflags = emu.eflags := rfl

theorem set_register32_memory (emu : Emulator) (reg v : Nat) :
    (set_register32 emu reg v).memory = emu.memory := rfl

theorem set_memory32_eip (emu : Emulator) (a v : Nat) :
    (set_memory32 emu a v).eip = emu.eip := rfl

theorem set_memory32_eflags (emu : Emulator) (a v : Nat) :
    (set_memory32 emu a v).eflags = emu.eflags := rfl

theorem set_memory32_registers (emu : Emulator) (a v : Nat) :
    (set_memory32 emu a v).registers = emu.registers := rfl

theorem set_rm32_eip (emu : Emulator) (m : ModRM) (v : Nat) :
    (set_rm32 emu m v).eip = emu.eip := by
  unfold set_rm32
  split <;> rfl

theorem set_rm32_eflags (emu : Emulator) (m : ModRM) (v : Nat) :
    (set_rm32 emu m v).eflags = emu.eflags := by
  unfold set_rm32
  split <;> rfl

theorem update_eflags_sub_eip (emu : Emulator) (v1 v2 r : Nat) :
    (update_eflags_sub emu v1 v2 r).eip = emu.eip := rfl

theorem update_eflags_sub_registers (emu : Emulator) (v1 v2 r : Nat) :
    (update_eflags_sub emu v1 v2 r).registers = emu.registers := rfl

theorem update_eflags_sub_memory (emu : Emulator) (v1 v2 r : Nat) :
    (update_eflags_sub emu v1 v2 r).memory = emu.memory := rfl

theorem push32_eip (emu : Emulator) (v : Nat) :
    (push32 emu v).eip = emu.eip := rfl

theorem push32_eflags (emu : Emulator) (v : Nat) :
    (push32 emu v).eflags = emu.eflags := rfl

theorem parse_modrm_eflags (emu : Emulator) :
    (parse_modrm emu).2.eflags = emu.eflags := by
  unfold parse_modrm
  dsimp only
  split <;> first | rfl | (split <;> rfl)

theorem parse_modrm_registers (emu : Emulator) :
    (parse_modrm emu).2.registers = emu.registers := by
  unfold parse_modrm
  dsimp only
  split <;> first | rfl | (split <;> rfl)

theorem parse_modrm_memory (emu : Emulator) :
    (parse_modrm emu).2.memory = emu.memory := by
  unfold parse_modrm
  dsimp only
  split <;> first | rfl | (split <;> rfl)

theorem parse_modrm_mod (emu : Emulator) :
    (parse_modrm emu).1.mod = get_code8 emu 0 / 64 := by
  unfold parse_modrm
  dsimp only
  split <;> first | rfl | (split <;> rfl)

theorem parse_modrm_opcode (emu : Emulator) :
    (parse_modrm emu).1.opcode = get_code8 emu 0 / 8 % 8 := by
  unfold parse_modrm
  dsimp only
  split <;> first | rfl | (split <;> rfl)

theorem parse_modrm_rm (emu : Emulator) :
    (parse_modrm emu).1.rm = get_code8 emu 0 % 8 := by
  unfold parse_modrm
  dsimp only
  split <;> first | rfl | (split <;> rfl)

theorem parse_modrm_eip (emu : Emulator) :
    (parse_modrm emu).2.eip = (emu.eip + modrm_length (get_code8 emu 0)) % UINT32_LIMIT := by
  unfold parse_modrm modrm_length
  dsimp only
  have e2 : emu.eip + 1 + 1 = emu.eip + 2 := by omega
  have e5 : emu.eip + 1 + 4 = emu.eip + 5 := by omega
  by_cases h1 : get_code8 emu 0 / 64 = 1
  · simp [h1, Nat.mod_add_mod, e2]
  · by_cases h2 : get_code8 emu 0 / 64 = 2
    · simp [h1, h2, Nat.mod_add_mod, e5]
    · simp [h1, h2]

theorem testBit_set_flag_nat_self (x k : Nat) (b : Bool) (hk : k < 32) :
    (set_flag_nat x (2 ^ k) b).testBit k = b := by
  unfold set_flag_nat UINT32_LIMIT
  have hm : Nat.testBit 4294967295 k = true := by
    have h : (4294967295 : Nat) = 2 ^ 32 - 1 := by norm_num
    rw [h, Nat.testBit_two_pow_sub_one]
    simpa using hk
  have hkk : ((2 : Nat) ^ k).testBit k = true := by
    rw [Nat.testBit_two_pow]
    simp
  cases b with
  | true =>
      simp [Nat.testBit_or, hkk]
  | false =>
      simp [Nat.testBit_and, Nat.testBit_xor, hm, hkk]

theorem testBit_set_flag_nat_other (x k j : Nat) (b : Bool) (hx : x < 2 ^ 32)
    (hj : j ≠ k) :
    (set_flag_nat x (2 ^ k) b).testBit j = x.testBit j := by
  unfold set_flag_nat UINT32_LIMIT
  have hkj : ((2 : Nat) ^ k).testBit j = false := by
    rw [Nat.testBit_two_pow]
    exact decide_eq_false fun h => hj h.symm
  cases b with
  | true =>
      simp [Nat.testBit_or, hkj]
  | false =>
      by_cases hj32 : j < 32
      · have hm : Nat.testBit 4294967295 j = true := by
          have h : (4294967295 : Nat) = 2 ^ 32 - 1 := by norm_num
          rw [h, Nat.testBit_two_pow_sub_one]
          simpa using hj32
        simp [Nat.testBit_and, Nat.testBit_xor, hm, hkj]
      · have hxj : x.testBit j = false :=
          Nat.testBit_lt_two_pow
            (lt_of_lt_of_le hx (Nat.pow_le_pow_right (by norm_num) (le_of_not_lt hj32)))
        simp [Nat.testBit_and, hxj]

theorem set_flag_nat_lt (x k : Nat) (b : Bool) (hx : x < 2 ^ 32) (hk : k < 32) :
    set_flag_nat x (2 ^ k) b < 2 ^ 32 := by
  unfold set_flag_nat UINT32_LIMIT
  cases b with
  | true =>
      exact Nat.or_lt_two_pow hx (Nat.pow_lt_pow_right (by norm_num) hk)
  | false =>
      exact lt_of_le_of_lt Nat.and_le_left hx

/- Arithmetic facts about the wide subtraction the handlers feed to
   update_eflags_sub. -/
theorem usub64_hi_eq (a b : Nat) (ha : a < UINT32_LIMIT) (hb : b < UINT32_LIMIT) :
    (usub64 a b >>> 32 != 0) = decide (a < b) := by
  have h32 : (2 : Nat) ^ 32 = 4294967296 := by norm_num
  have h64 : (2 : Nat) ^ 64 = 18446744073709551616 := by norm_num
  unfold usub64 UINT64_LIMIT
  unfold UINT32_LIMIT at ha hb
  rw [Nat.shiftRight_eq_div_pow]
  rw [h32] at ha hb ⊢
  rw [h64]
  by_cases hab : a < b
  · rw [decide_eq_true hab]
    have : (a + (18446744073709551616 - b % 18446744073709551616)) % 18446744073709551616
        / 4294967296 ≠ 0 := by omega
    simpa using this
  · rw [decide_eq_false hab]
    have : (a + (18446744073709551616 - b % 18446744073709551616)) % 18446744073709551616
        / 4294967296 = 0 := by omega
    simpa using this

theorem usub64_mod32 (a b : Nat) (ha : a < UINT32_LIMIT) (hb : b < UINT32_LIMIT) :
    usub64 a b % UINT32_LIMIT = (a + (UINT32_LIMIT - b)) % UINT32_LIMIT := by
  have h32 : (2 : Nat) ^ 32 = 4294967296 := by norm_num
  have h64 : (2 : Nat) ^ 64 = 18446744073709551616 := by norm_num
  unfold usub64 UINT64_LIMIT UINT32_LIMIT
  unfold UINT32_LIMIT at ha hb
  rw [h32] at ha hb ⊢
  rw [h64]
  omega

theorem usub64_mod32_zero (a b : Nat) (ha : a < UINT32_LIMIT) (hb : b < UINT32_LIMIT) :
    (usub64 a b % UINT32_LIMIT == 0) = decide (a = b) := by
  rw [usub64_mod32 a b ha hb]
  have h32 : (2 : Nat) ^ 32 = 4294967296 := by norm_num
  unfold UINT32_LIMIT
  unfold UINT32_LIMIT at ha hb
  rw [h32] at ha hb ⊢
  by_cases hab : a = b
  · rw [decide_eq_true hab, hab]
    have : (b + (4294967296 - b)) % 4294967296 = 0 := by omega
    simpa using this
  · rw [decide_eq_false hab]
    have : (a + (4294967296 - b)) % 4294967296 ≠ 0 := by omega
    simpa using this

/- The eflags word produced by update_eflags_sub, as a function of the
   original word and the four derived flag bits. -/
def eflags_sub_word (E : Nat) (cb zb sb ob : Bool) : Nat :=
  set_flag_nat (set_flag_nat (set_flag_nat (set_flag_nat E (2 ^ 0) cb) (2 ^ 6) zb)
    (2 ^ 7) sb) (2 ^ 11) ob

theorem update_eflags_sub_eflags (emu : Emulator) (v1 v2 r : Nat) :
    (update_eflags_sub emu v1 v2 r).eflags
      = eflags_sub_word emu.eflags (r >>> 32 != 0) (r % UINT32_LIMIT == 0)
          ((r % UINT32_LIMIT).testBit 31)
          (v1.testBit 31 != v2.testBit 31
            && v1.testBit 31 != (r % UINT32_LIMIT).testBit 31) := rfl

theorem eflags_sub_word_bit0 (E : Nat) (cb zb sb ob : Bool) (hE : E < 2 ^ 32) :
    (eflags_sub_word E cb zb sb ob).testBit 0 = cb := by
  unfold eflags_sub_word
  have hb1 : set_flag_nat E (2 ^ 0) cb < 2 ^ 32 := set_flag_nat_lt E 0 cb hE (by norm_num)
  have hb2 : set_flag_nat (set_flag_nat E (2 ^ 0) cb) (2 ^ 6) zb < 2 ^ 32 :=
    set_flag_nat_lt _ 6 zb hb1 (by norm_num)
  have hb3 : set_flag_nat (set_flag_nat (set_flag_nat E (2 ^ 0) cb) (2 ^ 6) zb) (2 ^ 7) sb
      < 2 ^ 32 := set_flag_nat_lt _ 7 sb hb2 (by norm_num)
  rw [testBit_set_flag_nat_other _ 11 0 ob hb3 (by norm_num),
    testBit_set_flag_nat_other _ 7 0 sb hb2 (by norm_num),
    testBit_set_flag_nat_other _ 6 0 zb hb1 (by norm_num),
    testBit_set_flag_nat_self E 0 cb (by norm_num)]

theorem eflags_sub_word_bit6 (E : Nat) (cb zb sb ob : Bool) (hE : E < 2 ^ 32) :
    (eflags_sub_word E cb zb sb ob).testBit 6 = zb := by
  unfold eflags_sub_word
  have hb1 : set_flag_nat E (2 ^ 0) cb < 2 ^ 32 := set_flag_nat_lt E 0 cb hE (by norm_num)
  have hb2 : set_flag_nat (set_flag_nat E (2 ^ 0) cb) (2 ^ 6) zb < 2 ^ 32 :=
    set_flag_nat_lt _ 6 zb hb1 (by norm_num)
  have hb3 : set_flag_nat (set_flag_nat (set_flag_nat E (2 ^ 0) cb) (2 ^ 6) zb) (2 ^ 7) sb
      < 2 ^ 32 := set_flag_nat_lt _ 7 sb hb2 (by norm_num)
  rw [testBit_set_flag_nat_other _ 11 6 ob hb3 (by norm_num),
    testBit_set_flag_nat_other _ 7 6 sb hb2 (by norm_num),
    testBit_set_flag_nat_self _ 6 zb (by norm_num)]

theorem eflags_sub_word_bit7 (E : Nat) (cb zb sb ob : Bool) (hE : E < 2 ^ 32) :
    (eflags_sub_word E cb zb sb ob).testBit 7 = sb := by
  unfold eflags_sub_word
  have hb1 : set_flag_nat E (2 ^ 0) cb < 2 ^ 32 := set_flag_nat_lt E 0 cb hE (by norm_num)
  have hb2 : set_flag_nat (set_flag_nat E (2 ^ 0) cb) (2 ^ 6) zb < 2 ^ 32 :=
    set_flag_nat_lt _ 6 zb hb1 (by norm_num)
  have hb3 : set_flag_nat (set_flag_nat (set_flag_nat E (2 ^ 0) cb) (2 ^ 6) zb) (2 ^ 7) sb
      < 2 ^ 32 := set_flag_nat_lt _ 7 sb hb2 (by norm_num)
  rw [testBit_set_flag_nat_other _ 11 7 ob hb3 (by norm_num),
    testBit_set_flag_nat_self _ 7 sb (by norm_num)]

theorem eflags_sub_word_bit11 (E : Nat) (cb zb sb ob : Bool) :
    (eflags_sub_word E cb zb sb ob).testBit 11 = ob := by
  unfold eflags_sub_word
  rw [testBit_set_flag_nat_self _ 11 ob (by norm_num)]

theorem eflags_sub_word_other (E : Nat) (cb zb sb ob : Bool) (hE : E < 2 ^ 32)
    (j : Nat) (hj0 : j ≠ 0) (hj6 : j ≠ 6) (hj7 : j ≠ 7) (hj11 : j ≠ 11) :
    (eflags_sub_word E cb zb sb ob).testBit j = E.testBit j := by
  unfold eflags_sub_word
  have hb1 : set_flag_nat E (2 ^ 0) cb < 2 ^ 32 := set_flag_nat_lt E 0 cb hE (by norm_num)
  have hb2 : set_flag_nat (set_flag_nat E (2 ^ 0) cb) (2 ^ 6) zb < 2 ^ 32 :=
    set_flag_nat_lt _ 6 zb hb1 (by norm_num)
  have hb3 : set_flag_nat (set_flag_nat (set_flag_nat E (2 ^ 0) cb) (2 ^ 6) zb) (2 ^ 7) sb
      < 2 ^ 32 := set_flag_nat_lt _ 7 sb hb2 (by norm_num)
  rw [testBit_set_flag_nat_other _ 11 j ob hb3 hj11,
    testBit_set_flag_nat_other _ 7 j sb hb2 hj7,
    testBit_set_flag_nat_other _ 6 j zb hb1 hj6,
    testBit_set_flag_nat_other E 0 j cb hE hj0]

/-- C1: after `update_eflags_sub(state, a, b, a-b)` with the result computed
at more than 32-bit precision, the zero flag (eflags bit 6) is set iff
`a = b`; the carry flag (bit 0) is set iff `a < b` as unsigned 32-bit
values; the sign flag (bit 7) is set iff bit 31 of `(a-b) mod 2^32` is set;
the overflow flag (bit 11) is set iff `a` and `b` have different sign bits
and the truncated result's sign bit differs from `a`'s; and every other bit
of eflags is unchanged. -/
theorem C1_update_eflags_sub_correct (emu : Emulator) (a b : Nat)
    (ha : a < UINT32_LIMIT) (hb : b < UINT32_LIMIT) (hf : emu.eflags < UINT32_LIMIT) :
    ((update_eflags_sub emu a b (usub64 a b)).eflags.testBit 6 = decide (a = b)) ∧
    ((update_eflags_sub emu a b (usub64 a b)).eflags.testBit 0 = decide (a < b)) ∧
    ((update_eflags_sub emu a b (usub64 a b)).eflags.testBit 7
        = ((a + (UINT32_LIMIT - b)) % UINT32_LIMIT).testBit 31) ∧
    ((update_eflags_sub emu a b (usub64 a b)).eflags.testBit 11
        = (a.testBit 31 != b.testBit 31
            && a.testBit 31 != ((a + (UINT32_LIMIT - b)) % UINT32_LIMIT).testBit 31)) ∧
    (∀ j, j ≠ 0 → j ≠ 6 → j ≠ 7 → j ≠ 11 →
      (update_eflags_sub emu a b (usub64 a b)).eflags.testBit j = emu.eflags.testBit j) := by
  have hf32 : emu.eflags < 2 ^ 32 := hf
  rw [update_eflags_sub_eflags]
  refine ⟨?_, ?_, ?_, ?_, ?_⟩
  · rw [eflags_sub_word_bit6 _ _ _ _ _ hf32]
    exact usub64_mod32_zero a b ha hb
  · rw [eflags_sub_word_bit0 _ _ _ _ _ hf32]
    exact usub64_hi_eq a b ha hb
  · rw [eflags_sub_word_bit7 _ _ _ _ _ hf32, usub64_mod32 a b ha hb]
  · rw [eflags_sub_word_bit11, usub64_mod32 a b ha hb]
  · intro j hj0 hj6 hj7 hj11
    exact eflags_sub_word_other _ _ _ _ _ hf32 j hj0 hj6 hj7 hj11

/- A concrete machine state for witnesses: eflags 2^13, registers all 0,
   every memory byte 0, eip 0. -/
def emu_w1 : Emulator :=
  { eflags := 2 ^ 13, registers := fun _ => 0, memory := fun _ => 0, eip := 0 }

/-- Witness for C1 at the spec's own example `a = 5`, `b = 10`: the
hypotheses hold, zero is clear, carry is set, sign is set, overflow is
clear, and the untouched bit 13 of the initial eflags survives. -/
theorem C1_update_eflags_sub_correct_witness :
    (5 < UINT32_LIMIT ∧ 10 < UINT32_LIMIT ∧ emu_w1.eflags < UINT32_LIMIT) ∧
    ((update_eflags_sub emu_w1 5 10 (usub64 5 10)).eflags.testBit 6 = decide ((5:Nat) = 10) ∧
      (update_eflags_sub emu_w1 5 10 (usub64 5 10)).eflags.testBit 0 = decide ((5:Nat) < 10) ∧
      (update_eflags_sub emu_w1 5 10 (usub64 5 10)).eflags.testBit 13 = emu_w1.eflags.testBit 13) := by
  have h := C1_update_eflags_sub_correct emu_w1 5 10 (by decide) (by decide) (by decide)
  exact ⟨⟨by decide, by decide, by decide⟩,
    h.1, h.2.1, h.2.2.2.2 13 (by decide) (by decide) (by decide) (by decide)⟩

/- Concrete states and ModR/M records for examples. -/
def modrm_reg0 : ModRM :=
  { mod := 3, opcode := 5, rm := 0, disp := 0 }

/- Register EAX holds 10, every code byte reads 3 (the imm8), flags
   clear. -/
def emu_sub_ex : Emulator :=
  { eflags := 0, registers := fun r => if r = 0 then 10 else 0,
    memory := fun _ => 3, eip := 0 }

/- Register EAX holds 5, every code byte reads 10 (the imm8), flags
   clear: 5 - 10 borrows, so the sub/cmp forms set the carry flag. -/
def emu_sub_ex2 : Emulator :=
  { eflags := 0, registers := fun r => if r = 0 then 5 else 0,
    memory := fun _ => 10, eip := 0 }

/-- C7: the 0x83 sub-op 7 (cmp) handler leaves the ModR/M operand's stored
value unmodified — registers and memory are exactly those of the input
state — and produces exactly the same eflags as the sub-op 5 (sub) handler
on the same operand and immediate; concretely, operand 10 with immediate 3
gives result 7 under sub, with carry and zero both clear under both
forms. -/
theorem C7_cmp_flags_match_sub :
    (∀ emu m, (cmp_rm32_imm8 emu m).eflags = (sub_rm32_imm8 emu m).eflags) ∧
    (∀ emu m, (cmp_rm32_imm8 emu m).registers = emu.registers) ∧
    (∀ emu m, (cmp_rm32_imm8 emu m).memory = emu.memory) ∧
    (get_rm32 (sub_rm32_imm8 emu_sub_ex modrm_reg0) modrm_reg0 = 7 ∧
      is_carry (sub_rm32_imm8 emu_sub_ex modrm_reg0) = false ∧
      is_zero (sub_rm32_imm8 emu_sub_ex modrm_reg0) = false ∧
      is_carry (cmp_rm32_imm8 emu_sub_ex modrm_reg0) = false ∧
      is_zero (cmp_rm32_imm8 emu_sub_ex modrm_reg0) = false ∧
      (cmp_rm32_imm8 emu_sub_ex modrm_reg0).eflags
        = (sub_rm32_imm8 emu_sub_ex modrm_reg0).eflags) := by
  refine ⟨?_, ?_, ?_, ?_⟩
  · intro emu m
    unfold cmp_rm32_imm8 sub_rm32_imm8
    dsimp only
    rw [update_eflags_sub_eflags, update_eflags_sub_eflags, set_rm32_eflags]
  · intro emu m
    rfl
  · intro emu m
    rfl
  · exact ⟨by decide, by decide, by decide, by decide, by decide, by decide⟩

/-- C8: the add handlers — add rm32,r32 (opcode 0x01) and the 0x83/sub-op-0
add rm32,imm8 path — leave every bit of eflags unchanged, unlike the sub
and cmp forms of the same 0x83 group, which do modify eflags (shown at the
concrete state 5 - 10, where they set the carry flag). -/
theorem C8_add_leaves_eflags :
    (∀ emu, (add_rm32_r32 emu).eflags = emu.eflags) ∧
    (∀ emu m, (add_rm32_imm8 emu m).eflags = emu.eflags) ∧
    ((sub_rm32_imm8 emu_sub_ex2 modrm_reg0).eflags ≠ emu_sub_ex2.eflags ∧
      (cmp_rm32_imm8 emu_sub_ex2 modrm_reg0).eflags ≠ emu_sub_ex2.eflags) := by
  refine ⟨?_, ?_, by decide, by decide⟩
  · intro emu
    unfold add_rm32_r32
    dsimp only
    rw [set_rm32_eflags, parse_modrm_eflags]
  · intro emu m
    unfold add_rm32_imm8
    dsimp only
    rw [set_rm32_eflags]

/- Not-taken form of a conditional jump: when the tested condition is
   false the displacement contributes 0 and eip advances by the fixed
   length alone. -/
theorem cond_not_taken (emu : Emulator) (c : Bool) (d : Int) (k : Nat)
    (hcond : c = false) (h : emu.eip + k < UINT32_LIMIT) :
    (eip_add_int emu ((if c then d else 0) + (k : Int))).eip = emu.eip + k := by
  simp only [hcond, Bool.false_eq_true, if_false]
  unfold eip_add_int
  have hN : UINT32_LIMIT = 4294967296 := by norm_num [UINT32_LIMIT]
  rw [hN] at h ⊢
  push_cast
  omega

/- Same, for handlers of negated polarity where the condition being true
   makes the jump not taken. -/
theorem cond_not_taken_inv (emu : Emulator) (c : Bool) (d : Int) (k : Nat)
    (hcond : c = true) (h : emu.eip + k < UINT32_LIMIT) :
    (eip_add_int emu ((if c then 0 else d) + (k : Int))).eip = emu.eip + k := by
  simp only [hcond, if_true]
  unfold eip_add_int
  have hN : UINT32_LIMIT = 4294967296 := by norm_num [UINT32_LIMIT]
  rw [hN] at h ⊢
  push_cast
  omega

/-- C3: for every conditional jump handler (short forms jc, jnc, jz, jnz,
js, jns, jo, jno, jl, jle and near forms jc32, jnc32, jz32, jnz32, jna32,
ja32, jg32), whenever the tested flag condition is false, eip advances by
exactly the fixed instruction length — 2 for the short form, 6 for the
near form — regardless of the encoded displacement bytes. -/
theorem C3_cond_jump_not_taken (emu : Emulator) (h : emu.eip + 6 < UINT32_LIMIT) :
    (is_carry emu = false → (jc emu).eip = emu.eip + 2) ∧
    (is_carry emu = true → (jnc emu).eip = emu.eip + 2) ∧
    (is_zero emu = false → (jz emu).eip = emu.eip + 2) ∧
    (is_zero emu = true → (jnz emu).eip = emu.eip + 2) ∧
    (is_sign emu = false → (js emu).eip = emu.eip + 2) ∧
    (is_sign emu = true → (jns emu).eip = emu.eip + 2) ∧
    (is_overflow emu = false → (jo emu).eip = emu.eip + 2) ∧
    (is_overflow emu = true → (jno emu).eip = emu.eip + 2) ∧
    ((is_sign emu != is_overflow emu) = false → (jl emu).eip = emu.eip + 2) ∧
    ((is_zero emu || (is_sign emu != is_overflow emu)) = false → (jle emu).eip = emu.eip + 2) ∧
    (is_carry emu = false → (jc32 emu).eip = emu.eip + 6) ∧
    (is_carry emu = true → (jnc32 emu).eip = emu.eip + 6) ∧
    (is_zero emu = false → (jz32 emu).eip = emu.eip + 6) ∧
    (is_zero emu = true → (jnz32 emu).eip = emu.eip + 6) ∧
    ((is_carry emu || is_zero emu) = false → (jna32 emu).eip = emu.eip + 6) ∧
    ((!is_carry emu && !is_zero emu) = false → (ja32 emu).eip = emu.eip + 6) ∧
    ((!is_zero emu && (is_sign emu == is_overflow emu)) = false → (jg32 emu).eip = emu.eip + 6) := by
  have h2 : emu.eip + 2 < UINT32_LIMIT := by omega
  refine ⟨?_, ?_, ?_, ?_, ?_, ?_, ?_, ?_, ?_, ?_, ?_, ?_, ?_, ?_, ?_, ?_, ?_⟩
  · intro hc
    exact cond_not_taken emu (is_carry emu) (get_sign_code8 emu 1) 2 hc h2
  · intro hc
    exact cond_not_taken_inv emu (is_carry emu) (get_sign_code8 emu 1) 2 hc h2
  · intro hc
    exact cond_not_taken emu (is_zero emu) (get_sign_code8 emu 1) 2 hc h2
  · intro hc
    exact cond_not_taken_inv emu (is_zero emu) (get_sign_code8 emu 1) 2 hc h2
  · intro hc
    exact cond_not_taken emu (is_sign emu) (get_sign_code8 emu 1) 2 hc h2
  · intro hc
    exact cond_not_taken_inv emu (is_sign emu) (get_sign_code8 emu 1) 2 hc h2
  · intro hc
    exact cond_not_taken emu (is_overflow emu) (get_sign_code8 emu 1) 2 hc h2
  · intro hc
    exact cond_not_taken_inv emu (is_overflow emu) (get_sign_code8 emu 1) 2 hc h2
  · intro hc
    exact cond_not_taken emu (is_sign emu != is_overflow emu) (get_sign_code8 emu 1) 2 hc h2
  · intro hc
    exact cond_not_taken emu (is_zero emu || (is_sign emu != is_overflow emu))
      (get_sign_code8 emu 1) 2 hc h2
  · intro hc
    exact cond_not_taken emu (is_carry emu) (get_sign_code32 emu 2) 6 hc h
  · intro hc
    exact cond_not_taken_inv emu (is_carry emu) (get_sign_code32 emu 2) 6 hc h
  · intro hc
    exact cond_not_taken emu (is_zero emu) (get_sign_code32 emu 2) 6 hc h
  · intro hc
    exact cond_not_taken_inv emu (is_zero emu) (get_sign_code32 emu 2) 6 hc h
  · intro hc
    exact cond_not_taken emu (is_carry emu || is_zero emu) (get_sign_code32 emu 2) 6 hc h
  · intro hc
    exact cond_not_taken emu (!is_carry emu && !is_zero emu) (get_sign_code32 emu 2) 6 hc h
  · intro hc
    exact cond_not_taken emu (!is_zero emu && (is_sign emu == is_overflow emu))
      (get_sign_code32 emu 2) 6 hc h

/-- Witness for C3: a concrete flag-clear state with a non-zero
displacement byte in the stream, where jc falls through to eip + 2 and
jc32 to eip + 6. -/
theorem C3_cond_jump_not_taken_witness :
    emu_sub_ex.eip + 6 < UINT32_LIMIT ∧ is_carry emu_sub_ex = false ∧
    (jc emu_sub_ex).eip = emu_sub_ex.eip + 2 ∧
    (jc32 emu_sub_ex).eip = emu_sub_ex.eip + 6 := by
  have h := C3_cond_jump_not_taken emu_sub_ex (by decide)
  exact ⟨by decide, by decide, h.1 (by decide), h.2.2.2.2.2.2.2.2.2.2.1 (by decide)⟩

/- The two possible outcomes of a short conditional jump: the taken
   target (fixed length 2 plus the signed displacement byte) and the
   fall-through target (fixed length 2 alone). -/
def taken_eip8 (emu : Emulator) : Nat :=
  (((emu.eip : Int) + (get_sign_code8 emu 1 + 2)) % (UINT32_LIMIT : Int)).toNat

def fall_eip8 (emu : Emulator) : Nat :=
  (((emu.eip : Int) + (0 + 2)) % (UINT32_LIMIT : Int)).toNat

/- Near-form counterparts (fixed length 6, 32-bit displacement). -/
def taken_eip32 (emu : Emulator) : Nat :=
  (((emu.eip : Int) + (get_sign_code32 emu 2 + 6)) % (UINT32_LIMIT : Int)).toNat

def fall_eip32 (emu : Emulator) : Nat :=
  (((emu.eip : Int) + (0 + 6)) % (UINT32_LIMIT : Int)).toNat

/-- C10: each flag-tested conditional jump pair is an exact complement: in
any state, the handler whose condition holds jumps to the taken target and
its partner advances by only the fixed length — jc/jnc, jz/jnz, js/jns,
jo/jno in short form and jc32/jnc32, jz32/jnz32, jna32/ja32 in near form
split on the same condition with the two outcomes swapped. -/
theorem C10_jump_pairs_complementary (emu : Emulator) :
    ((jc emu).eip = if is_carry emu then taken_eip8 emu else fall_eip8 emu) ∧
    ((jnc emu).eip = if is_carry emu then fall_eip8 emu else taken_eip8 emu) ∧
    ((jz emu).eip = if is_zero emu then taken_eip8 emu else fall_eip8 emu) ∧
    ((jnz emu).eip = if is_zero emu then fall_eip8 emu else taken_eip8 emu) ∧
    ((js emu).eip = if is_sign emu then taken_eip8 emu else fall_eip8 emu) ∧
    ((jns emu).eip = if is_sign emu then fall_eip8 emu else taken_eip8 emu) ∧
    ((jo emu).eip = if is_overflow emu then taken_eip8 emu else fall_eip8 emu) ∧
    ((jno emu).eip = if is_overflow emu then fall_eip8 emu else taken_eip8 emu) ∧
    ((jc32 emu).eip = if is_carry emu then taken_eip32 emu else fall_eip32 emu) ∧
    ((jnc32 emu).eip = if is_carry emu then fall_eip32 emu else taken_eip32 emu) ∧
    ((jz32 emu).eip = if is_zero emu then taken_eip32 emu else fall_eip32 emu) ∧
    ((jnz32 emu).eip = if is_zero emu then fall_eip32 emu else taken_eip32 emu) ∧
    ((jna32 emu).eip
        = if is_carry emu || is_zero emu then taken_eip32 emu else fall_eip32 emu) ∧
    ((ja32 emu).eip
        = if is_carry emu || is_zero emu then fall_eip32 emu else taken_eip32 emu) := by
  refine ⟨?_, ?_, ?_, ?_, ?_, ?_, ?_, ?_, ?_, ?_, ?_, ?_, ?_, ?_⟩
  · cases h : is_carry emu <;> simp [jc, taken_eip8, fall_eip8, eip_add_int, h]
  · cases h : is_carry emu <;> simp [jnc, taken_eip8, fall_eip8, eip_add_int, h]
  · cases h : is_zero emu <;> simp [jz, taken_eip8, fall_eip8, eip_add_int, h]
  · cases h : is_zero emu <;> simp [jnz, taken_eip8, fall_eip8, eip_add_int, h]
  · cases h : is_sign emu <;> simp [js, taken_eip8, fall_eip8, eip_add_int, h]
  · cases h : is_sign emu <;> simp [jns, taken_eip8, fall_eip8, eip_add_int, h]
  · cases h : is_overflow emu <;> simp [jo, taken_eip8, fall_eip8, eip_add_int, h]
  · cases h : is_overflow emu <;> simp [jno, taken_eip8, fall_eip8, eip_add_int, h]
  · cases h : is_carry emu <;> simp [jc32, taken_eip32, fall_eip32, eip_add_int, h]
  · cases h : is_carry emu <;> simp [jnc32, taken_eip32, fall_eip32, eip_add_int, h]
  · cases h : is_zero emu <;> simp [jz32, taken_eip32, fall_eip32, eip_add_int, h]
  · cases h : is_zero emu <;> simp [jnz32, taken_eip32, fall_eip32, eip_add_int, h]
  · cases hc : is_carry emu <;> cases hz : is_zero emu <;>
      simp [jna32, taken_eip32, fall_eip32, eip_add_int, hc, hz]
  · cases hc : is_carry emu <;> cases hz : is_zero emu <;>
      simp [ja32, taken_eip32, fall_eip32, eip_add_int, hc, hz]

theorem mod_add_add (a L k M : Nat) : ((a % M + L) % M + k) % M = (a + L + k) % M := by
  rw [Nat.mod_add_mod, Nat.add_assoc, Nat.mod_add_mod, ← Nat.add_assoc]

/- Reading the byte at offset 0 after advancing eip by one sees the
   byte at offset 1 of the original state. -/
theorem code_at_one (emu : Emulator) :
    get_code8 { emu with eip := (emu.eip + 1) % UINT32_LIMIT } 0 = get_code8 emu 1 := by
  unfold get_code8 get_memory8
  dsimp only
  rw [Nat.add_zero, Nat.mod_mod_of_dvd _ dvd_rfl]

theorem modrm_length_le (x : Nat) : modrm_length x ≤ 5 := by
  unfold modrm_length
  split
  · norm_num
  · split <;> norm_num

theorem mov_r32_imm32_eip (emu : Emulator) :
    (mov_r32_imm32 emu).eip = (emu.eip + 5) % UINT32_LIMIT := rfl

theorem mov_rm32_imm32_eip (emu : Emulator) :
    (mov_rm32_imm32 emu).eip
      = (emu.eip + 1 + modrm_length (get_code8 emu 1) + 4) % UINT32_LIMIT := by
  unfold mov_rm32_imm32
  dsimp only
  rw [set_rm32_eip]
  show ((parse_modrm { emu with eip := (emu.eip + 1) % UINT32_LIMIT }).2.eip + 4)
      % UINT32_LIMIT = _
  rw [parse_modrm_eip, code_at_one]
  dsimp only
  exact mod_add_add (emu.eip + 1) (modrm_length (get_code8 emu 1)) 4 UINT32_LIMIT

theorem mov_rm32_r32_eip (emu : Emulator) :
    (mov_rm32_r32 emu).eip
      = (emu.eip + 1 + modrm_length (get_code8 emu 1)) % UINT32_LIMIT := by
  unfold mov_rm32_r32
  dsimp only
  rw [set_rm32_eip, parse_modrm_eip, code_at_one, Nat.mod_add_mod]

theorem mov_r32_rm32_eip (emu : Emulator) :
    (mov_r32_rm32 emu).eip
      = (emu.eip + 1 + modrm_length (get_code8 emu 1)) % UINT32_LIMIT := by
  unfold mov_r32_rm32 set_r32
  dsimp only
  rw [set_register32_eip, parse_modrm_eip, code_at_one, Nat.mod_add_mod]

theorem add_rm32_r32_eip (emu : Emulator) :
    (add_rm32_r32 emu).eip
      = (emu.eip + 1 + modrm_length (get_code8 emu 1)) % UINT32_LIMIT := by
  unfold add_rm32_r32
  dsimp only
  rw [set_rm32_eip, parse_modrm_eip, code_at_one, Nat.mod_add_mod]

theorem cmp_r32_rm32_eip (emu : Emulator) :
    (cmp_r32_rm32 emu).eip
      = (emu.eip + 1 + modrm_length (get_code8 emu 1)) % UINT32_LIMIT := by
  unfold cmp_r32_rm32
  dsimp only
  rw [update_eflags_sub_eip, parse_modrm_eip, code_at_one, Nat.mod_add_mod]

theorem add_rm32_imm8_eip (emu : Emulator) (m : ModRM) :
    (add_rm32_imm8 emu m).eip = (emu.eip + 1) % UINT32_LIMIT := by
  unfold add_rm32_imm8
  dsimp only
  rw [set_rm32_eip]

theorem sub_rm32_imm8_eip (emu : Emulator) (m : ModRM) :
    (sub_rm32_imm8 emu m).eip = (emu.eip + 1) % UINT32_LIMIT := by
  unfold sub_rm32_imm8
  dsimp only
  rw [update_eflags_sub_eip, set_rm32_eip]

theorem cmp_rm32_imm8_eip (emu : Emulator) (m : ModRM) :
    (cmp_rm32_imm8 emu m).eip = (emu.eip + 1) % UINT32_LIMIT := by
  unfold cmp_rm32_imm8
  dsimp only
  rw [update_eflags_sub_eip]

theorem code_83_ok_eip (emu emu2 : Emulator) (h : code_83 emu = Except.ok emu2) :
    emu2.eip = (emu.eip + 1 + modrm_length (get_code8 emu 1) + 1) % UINT32_LIMIT := by
  unfold code_83 at h
  dsimp only at h
  split_ifs at h with h0 h5 h7
  · cases h
    rw [add_rm32_imm8_eip, parse_modrm_eip, code_at_one]
    dsimp only
    exact mod_add_add (emu.eip + 1) (modrm_length (get_code8 emu 1)) 1 UINT32_LIMIT
  · cases h
    rw [sub_rm32_imm8_eip, parse_modrm_eip, code_at_one]
    dsimp only
    exact mod_add_add (emu.eip + 1) (modrm_length (get_code8 emu 1)) 1 UINT32_LIMIT
  · cases h
    rw [cmp_rm32_imm8_eip, parse_modrm_eip, code_at_one]
    dsimp only
    exact mod_add_add (emu.eip + 1) (modrm_length (get_code8 emu 1)) 1 UINT32_LIMIT

theorem code_ff_ok_eip (emu emu2 : Emulator) (h : code_ff emu = Except.ok emu2) :
    emu2.eip = (emu.eip + 1 + modrm_length (get_code8 emu 1)) % UINT32_LIMIT := by
  unfold code_ff at h
  dsimp only at h
  split_ifs at h with h0
  · cases h
    show (set_rm32 _ _ _).eip = _
    rw [set_rm32_eip, parse_modrm_eip, code_at_one, Nat.mod_add_mod]

theorem push_r32_eip (emu : Emulator) :
    (push_r32 emu).eip = (emu.eip + 1) % UINT32_LIMIT := by
  unfold push_r32
  dsimp only
  rw [push32_eip]

theorem pop_r32_eip (emu : Emulator) :
    (pop_r32 emu).eip = (emu.eip + 1) % UINT32_LIMIT := by
  unfold pop_r32 pop32
  dsimp only
  rw [set_register32_eip, set_register32_eip]

theorem leave_eip (emu : Emulator) :
    (leave emu).eip = (emu.eip + 1) % UINT32_LIMIT := by
  unfold leave pop32
  dsimp only
  rw [set_register32_eip, set_register32_eip, set_register32_eip]

theorem push_imm32_eip (emu : Emulator) :
    (push_imm32 emu).eip = (emu.eip + 5) % UINT32_LIMIT := by
  unfold push_imm32
  dsimp only
  rw [push32_eip]

theorem push_imm8_eip (emu : Emulator) :
    (push_imm8 emu).eip = (emu.eip + 2) % UINT32_LIMIT := by
  unfold push_imm8
  dsimp only
  rw [push32_eip]

/-- C2: for every non-control-transfer handler and every encoding, eip
advances by exactly the instruction's encoded length: 5 for mov r32,imm32;
1 + ModR/M-bytes + 4 for mov rm32,imm32; 1 + ModR/M-bytes for mov
rm32,r32, mov r32,rm32, add rm32,r32, cmp r32,rm32 and inc rm32 (0xFF/0);
1 + ModR/M-bytes + 1 for the 0x83 group forms; 1 for push r32, pop r32 and
leave; 5 for push imm32; 2 for push imm8 (ModR/M-bytes is 1 plus the
displacement bytes selected by the mod field of the ModR/M byte at
eip + 1). -/
theorem C2_eip_advancement (emu : Emulator) (h : emu.eip + 16 < UINT32_LIMIT) :
    ((mov_r32_imm32 emu).eip = emu.eip + 5) ∧
    ((mov_rm32_imm32 emu).eip = emu.eip + 1 + modrm_length (get_code8 emu 1) + 4) ∧
    ((mov_rm32_r32 emu).eip = emu.eip + 1 + modrm_length (get_code8 emu 1)) ∧
    ((mov_r32_rm32 emu).eip = emu.eip + 1 + modrm_length (get_code8 emu 1)) ∧
    ((add_rm32_r32 emu).eip = emu.eip + 1 + modrm_length (get_code8 emu 1)) ∧
    ((cmp_r32_rm32 emu).eip = emu.eip + 1 + modrm_length (get_code8 emu 1)) ∧
    (∀ emu2, code_83 emu = Except.ok emu2 →
      emu2.eip = emu.eip + 1 + modrm_length (get_code8 emu 1) + 1) ∧
    (∀ emu2, code_ff emu = Except.ok emu2 →
      emu2.eip = emu.eip + 1 + modrm_length (get_code8 emu 1)) ∧
    ((push_r32 emu).eip = emu.eip + 1) ∧
    ((pop_r32 emu).eip = emu.eip + 1) ∧
    ((leave emu).eip = emu.eip + 1) ∧
    ((push_imm32 emu).eip = emu.eip + 5) ∧
    ((push_imm8 emu).eip = emu.eip + 2) := by
  have hL := modrm_length_le (get_code8 emu 1)
  refine ⟨?_, ?_, ?_, ?_, ?_, ?_, ?_, ?_, ?_, ?_, ?_, ?_, ?_⟩
  · rw [mov_r32_imm32_eip]
    exact Nat.mod_eq_of_lt (by omega)
  · rw [mov_rm32_imm32_eip]
    exact Nat.mod_eq_of_lt (by omega)
  · rw [mov_rm32_r32_eip]
    exact Nat.mod_eq_of_lt (by omega)
  · rw [mov_r32_rm32_eip]
    exact Nat.mod_eq_of_lt (by omega)
  · rw [add_rm32_r32_eip]
    exact Nat.mod_eq_of_lt (by omega)
  · rw [cmp_r32_rm32_eip]
    exact Nat.mod_eq_of_lt (by omega)
  · intro emu2 hok
    rw [code_83_ok_eip emu emu2 hok]
    exact Nat.mod_eq_of_lt (by omega)
  · intro emu2 hok
    rw [code_ff_ok_eip emu emu2 hok]
    exact Nat.mod_eq_of_lt (by omega)
  · rw [push_r32_eip]
    exact Nat.mod_eq_of_lt (by omega)
  · rw [pop_r32_eip]
    exact Nat.mod_eq_of_lt (by omega)
  · rw [leave_eip]
    exact Nat.mod_eq_of_lt (by omega)
  · rw [push_imm32_eip]
    exact Nat.mod_eq_of_lt (by omega)
  · rw [push_imm8_eip]
    exact Nat.mod_eq_of_lt (by omega)

/-- Witness for C2 at a concrete state (eip 0, all code bytes 0, so the
ModR/M byte has mod 0 and the ModR/M length is 1): mov r32,imm32 lands at
5, mov rm32,imm32 at 6, mov rm32,r32 at 2 and push imm8 at 2. -/
theorem C2_eip_advancement_witness :
    emu_w1.eip + 16 < UINT32_LIMIT ∧
    (mov_r32_imm32 emu_w1).eip = emu_w1.eip + 5 ∧
    (mov_rm32_imm32 emu_w1).eip = emu_w1.eip + 1 + modrm_length (get_code8 emu_w1 1) + 4 ∧
    (mov_rm32_r32 emu_w1).eip = emu_w1.eip + 1 + modrm_length (get_code8 emu_w1 1) ∧
    (push_imm8 emu_w1).eip = emu_w1.eip + 2 := by
  have h := C2_eip_advancement emu_w1 (by decide)
  exact ⟨by decide, h.1, h.2.1, h.2.2.1, h.2.2.2.2.2.2.2.2.2.2.2.2⟩

/-- C9: for a grouped opcode whose decoded ModR/M reg/opcode sub-field is
not one of the implemented sub-opcodes (0, 5, 7 for 0x83; 0 for 0xFF),
execution stops with the fatal decode error that reports both the group
opcode and the sub-field value; no sub-handler result is produced. -/
theorem C9_group_suberr (emu : Emulator) :
    (get_code8 emu 1 / 8 % 8 ≠ 0 → get_code8 emu 1 / 8 % 8 ≠ 5 →
      get_code8 emu 1 / 8 % 8 ≠ 7 →
      code_83 emu
        = Except.error (EmuErr.notImplementedSubOp 0x83 (get_code8 emu 1 / 8 % 8))) ∧
    (get_code8 emu 1 / 8 % 8 ≠ 0 →
      code_ff emu
        = Except.error (EmuErr.notImplementedSubOp 0xFF (get_code8 emu 1 / 8 % 8))) := by
  constructor
  · intro h0 h5 h7
    unfold code_83
    dsimp only
    rw [parse_modrm_opcode, code_at_one]
    rw [if_neg h0, if_neg h5, if_neg h7]
  · intro h0
    unfold code_ff
    dsimp only
    rw [parse_modrm_opcode, code_at_one]
    rw [if_neg h0]

/- A state whose ModR/M byte decodes to sub-opcode 1 (byte 0x08 at every
   code position). -/
def emu_w9 : Emulator :=
  { eflags := 0, registers := fun _ => 0, memory := fun _ => 8, eip := 0 }

/-- Witness for C9: at the state whose ModR/M byte decodes sub-opcode 1,
both group handlers report the fatal error carrying the group opcode and
the sub-field value 1. -/
theorem C9_group_suberr_witness :
    code_83 emu_w9 = Except.error (EmuErr.notImplementedSubOp 0x83 1) ∧
    code_ff emu_w9 = Except.error (EmuErr.notImplementedSubOp 0xFF 1) := by
  have h := C9_group_suberr emu_w9
  have hv : get_code8 emu_w9 1 / 8 % 8 = 1 := by decide
  have h1 := h.1 (by decide) (by decide) (by decide)
  have h2 := h.2 (by decide)
  rw [hv] at h1 h2
  exact ⟨h1, h2⟩

/- The opcodes bound by init_instructions (used to state that all other
   table entries stay empty). -/
def bound_opcodes : List Nat :=
  [0x01, 0x3B,
   0x50, 0x51, 0x52, 0x53, 0x54, 0x55, 0x56, 0x57,
   0x58, 0x59, 0x5A, 0x5B, 0x5C, 0x5D, 0x5E, 0x5F,
   0x68, 0x6A,
   0x70, 0x71, 0x72, 0x73, 0x74, 0x75, 0x78, 0x79, 0x7C, 0x7E,
   0x83, 0x89, 0x8B,
   0xB8, 0xB9, 0xBA, 0xBB, 0xBC, 0xBD, 0xBE, 0xBF,
   0xC3, 0xC7, 0xC9, 0xE8, 0xE9, 0xEB, 0xFF]

set_option maxRecDepth 4096 in
/-- C5: the dispatch table binds the opcodes exactly as tabulated — in
particular 0x50–0x57 to push r32, 0x58–0x5F to pop r32 and 0xB8–0xBF to
mov r32,imm32, with every opcode outside the tabulated set left unbound —
and the near conditional jumps are reachable through the 0x0F prefix,
dispatched on the second opcode byte: 0x82–0x87 and 0x8F bind
jc32/jnc32/jz32/jnz32/jna32/ja32/jg32 and no other second byte is
bound. -/
theorem C5_dispatch_table :
    (∀ i, i < 8 → init_instructions (0x50 + i) = some InstrKind.i_push_r32) ∧
    (∀ i, i < 8 → init_instructions (0x58 + i) = some InstrKind.i_pop_r32) ∧
    (∀ i, i < 8 → init_instructions (0xB8 + i) = some InstrKind.i_mov_r32_imm32) ∧
    (init_instructions 0x01 = some InstrKind.i_add_rm32_r32 ∧
      init_instructions 0x3B = some InstrKind.i_cmp_r32_rm32 ∧
      init_instructions 0x68 = some InstrKind.i_push_imm32 ∧
      init_instructions 0x6A = some InstrKind.i_push_imm8 ∧
      init_instructions 0x70 = some InstrKind.i_jo ∧
      init_instructions 0x71 = some InstrKind.i_jno ∧
      init_instructions 0x72 = some InstrKind.i_jc ∧
      init_instructions 0x73 = some InstrKind.i_jnc ∧
      init_instructions 0x74 = some InstrKind.i_jz ∧
      init_instructions 0x75 = some InstrKind.i_jnz ∧
      init_instructions 0x78 = some InstrKind.i_js ∧
      init_instructions 0x79 = some InstrKind.i_jns ∧
      init_instructions 0x7C = some InstrKind.i_jl ∧
      init_instructions 0x7E = some InstrKind.i_jle ∧
      init_instructions 0x83 = some InstrKind.i_code_83 ∧
      init_instructions 0x89 = some InstrKind.i_mov_rm32_r32 ∧
      init_instructions 0x8B = some InstrKind.i_mov_r32_rm32 ∧
      init_instructions 0xC7 = some InstrKind.i_mov_rm32_imm32 ∧
      init_instructions 0xE9 = some InstrKind.i_near_jump ∧
      init_instructions 0xEB = some InstrKind.i_short_jump ∧
      init_instructions 0xFF = some InstrKind.i_code_ff ∧
      init_instructions 0xC3 = some InstrKind.i_ret ∧
      init_instructions 0xE8 = some InstrKind.i_call_rel32 ∧
      init_instructions 0xC9 = some InstrKind.i_leave) ∧
    (∀ op, op < 256 → op ∉ bound_opcodes → init_instructions op = none) ∧
    (instructions_0f 0x82 = some NearJumpKind.n_jc32 ∧
      instructions_0f 0x83 = some NearJumpKind.n_jnc32 ∧
      instructions_0f 0x84 = some NearJumpKind.n_jz32 ∧
      instructions_0f 0x85 = some NearJumpKind.n_jnz32 ∧
      instructions_0f 0x86 = some NearJumpKind.n_jna32 ∧
      instructions_0f 0x87 = some NearJumpKind.n_ja32 ∧
      instructions_0f 0x8F = some NearJumpKind.n_jg32) ∧
    (∀ op2, op2 < 256 → ¬((0x82 ≤ op2 ∧ op2 ≤ 0x87) ∨ op2 = 0x8F) →
      instructions_0f op2 = none) ∧
    (∀ emu, exec_instruction InstrKind.i_push_r32 emu = Except.ok (push_r32 emu)) ∧
    (∀ emu, exec_instruction InstrKind.i_pop_r32 emu = Except.ok (pop_r32 emu)) ∧
    (∀ emu, exec_instruction InstrKind.i_mov_r32_imm32 emu
        = Except.ok (mov_r32_imm32 emu)) ∧
    (∀ emu, exec_near_jump NearJumpKind.n_jc32 emu = jc32 emu) ∧
    (∀ emu, exec_near_jump NearJumpKind.n_jg32 emu = jg32 emu) := by
  refine ⟨by decide, by decide, by decide, by decide, by decide, by decide, by decide,
    fun emu => rfl, fun emu => rfl, fun emu => rfl, fun emu => rfl, fun emu => rfl⟩

/-- Witness for C5: the bounded-quantifier bindings instantiated at
concrete opcodes — 0x53 is bound to push r32, 0x5F to pop r32, 0xB8 to
mov r32,imm32, and the unbound opcode 0x02 stays empty. -/
theorem C5_dispatch_table_witness :
    (3 < 8 ∧ init_instructions (0x50 + 3) = some InstrKind.i_push_r32) ∧
    (7 < 8 ∧ init_instructions (0x58 + 7) = some InstrKind.i_pop_r32) ∧
    (0 < 8 ∧ init_instructions (0xB8 + 0) = some InstrKind.i_mov_r32_imm32) ∧
    (2 < 256 ∧ (2 : Nat) ∉ bound_opcodes ∧ init_instructions 2 = none) := by
  have h := C5_dispatch_table
  exact ⟨⟨by decide, h.1 3 (by decide)⟩, ⟨by decide, h.2.1 7 (by decide)⟩,
    ⟨by decide, h.2.2.1 0 (by decide)⟩,
    ⟨by decide, by decide, h.2.2.2.2.1 2 (by decide) (by decide)⟩⟩

theorem get_register32_set_register32_same (emu : Emulator) (r v : Nat) :
    get_register32 (set_register32 emu r v) r = v % UINT32_LIMIT := by
  unfold get_register32 set_register32
  simp

theorem get_register32_set_memory32 (emu : Emulator) (a v r : Nat) :
    get_register32 (set_memory32 emu a v) r = get_register32 emu r := rfl

theorem get_register32_eip_add_int (emu : Emulator) (d : Int) (r : Nat) :
    get_register32 (eip_add_int emu d) r = get_register32 emu r := rfl

theorem get_memory32_eip_add_int (emu : Emulator) (d : Int) (a : Nat) :
    get_memory32 (eip_add_int emu d) a = get_memory32 emu a := rfl

theorem get_set_byte (emu : Emulator) (a1 v a2 : Nat) :
    get_memory8 (set_memory8 emu a1 v) a2
      = if a2 % UINT32_LIMIT = a1 % UINT32_LIMIT then v % 256 else get_memory8 emu a2 := by
  unfold get_memory8 set_memory8
  dsimp only
  by_cases h : a2 % UINT32_LIMIT = a1 % UINT32_LIMIT
  · simp [h, Nat.mod_mod_of_dvd]
  · simp [h]

theorem get_memory32_set_memory32 (emu : Emulator) (addr v : Nat)
    (h : addr + 3 < UINT32_LIMIT) :
    get_memory32 (set_memory32 emu addr v) addr = v % UINT32_LIMIT := by
  have hM : UINT32_LIMIT = 4294967296 := by norm_num [UINT32_LIMIT]
  have h0 : addr % UINT32_LIMIT = addr := Nat.mod_eq_of_lt (by omega)
  have h1 : (addr + 1) % UINT32_LIMIT = addr + 1 := Nat.mod_eq_of_lt (by omega)
  have h2 : (addr + 2) % UINT32_LIMIT = addr + 2 := Nat.mod_eq_of_lt (by omega)
  have h3 : (addr + 3) % UINT32_LIMIT = addr + 3 := Nat.mod_eq_of_lt (by omega)
  unfold get_memory32 set_memory32
  simp only [get_set_byte, h0, h1, h2, h3]
  norm_num
  rw [hM]
  omega

theorem get_register32_eip_update (emu : Emulator) (e r : Nat) :
    get_register32 { emu with eip := e } r = get_register32 emu r := rfl

theorem call_rel32_eq (emu : Emulator) :
    call_rel32 emu = eip_add_int (push32 emu ((emu.eip + 5) % UINT32_LIMIT))
      (get_sign_code32 emu 1 + 5) := rfl

theorem pop32_fst (emu : Emulator) :
    (pop32 emu).1 = get_memory32 emu (get_register32 emu ESP) := rfl

theorem pop32_snd (emu : Emulator) :
    (pop32 emu).2 = set_register32 emu ESP (get_register32 emu ESP + 4) := rfl

theorem push32_facts (emu : Emulator) (v : Nat)
    (h4 : 4 ≤ get_register32 emu ESP) (hM : get_register32 emu ESP < UINT32_LIMIT) :
    get_register32 (push32 emu v) ESP = get_register32 emu ESP - 4 ∧
    get_memory32 (push32 emu v) (get_register32 emu ESP - 4) = v % UINT32_LIMIT ∧
    (pop32 (push32 emu v)).1 = v % UINT32_LIMIT ∧
    get_register32 (pop32 (push32 emu v)).2 ESP = get_register32 emu ESP := by
  have hL : UINT32_LIMIT = 4294967296 := by norm_num [UINT32_LIMIT]
  have haddr : (get_register32 emu ESP + (UINT32_LIMIT - 4)) % UINT32_LIMIT
      = get_register32 emu ESP - 4 := by
    rw [hL] at hM ⊢
    omega
  have hsub : get_register32 emu ESP - 4 < UINT32_LIMIT := by omega
  have hesp : get_register32 (push32 emu v) ESP = get_register32 emu ESP - 4 := by
    unfold push32
    dsimp only
    rw [haddr, get_register32_set_memory32, get_register32_set_register32_same,
      Nat.mod_eq_of_lt hsub]
  have hmem : get_memory32 (push32 emu v) (get_register32 emu ESP - 4)
      = v % UINT32_LIMIT := by
    unfold push32
    dsimp only
    rw [haddr]
    exact get_memory32_set_memory32 _ _ _ (by omega)
  have hpop1 : (pop32 (push32 emu v)).1 = v % UINT32_LIMIT := by
    unfold pop32
    dsimp only
    rw [hesp, hmem]
  have hpop2 : get_register32 (pop32 (push32 emu v)).2 ESP = get_register32 emu ESP := by
    unfold pop32
    dsimp only
    rw [hesp, get_register32_set_register32_same]
    rw [hL] at hM ⊢
    omega
  exact ⟨hesp, hmem, hpop1, hpop2⟩

set_option maxRecDepth 4096 in
/-- C6: executing call rel32 at eip = A with ESP = S pushes the return
address A + 5 at the new stack top S - 4 and sets eip to A + 5 + d wrapped
to 32 bits (d the signed 32-bit displacement); a subsequently executed ret
with the stack balanced restores eip to A + 5 and ESP to S. -/
theorem C6_call_ret (emu : Emulator) (h4 : 4 ≤ get_register32 emu ESP)
    (hM : get_register32 emu ESP < UINT32_LIMIT) (heip : emu.eip + 5 < UINT32_LIMIT) :
    ((call_rel32 emu).eip
        = (((emu.eip : Int) + 5 + get_sign_code32 emu 1) % (UINT32_LIMIT : Int)).toNat) ∧
    (get_register32 (call_rel32 emu) ESP = get_register32 emu ESP - 4) ∧
    (get_memory32 (call_rel32 emu) (get_register32 emu ESP - 4) = emu.eip + 5) ∧
    ((ret (call_rel32 emu)).eip = emu.eip + 5) ∧
    (get_register32 (ret (call_rel32 emu)) ESP = get_register32 emu ESP) := by
  have hp := push32_facts emu ((emu.eip + 5) % UINT32_LIMIT) h4 hM
  have hv : (emu.eip + 5) % UINT32_LIMIT % UINT32_LIMIT = emu.eip + 5 := by
    rw [Nat.mod_mod_of_dvd _ dvd_rfl]
    exact Nat.mod_eq_of_lt heip
  refine ⟨?_, ?_, ?_, ?_, ?_⟩
  · show (eip_add_int (push32 emu ((emu.eip + 5) % UINT32_LIMIT))
        (get_sign_code32 emu 1 + 5)).eip = _
    unfold eip_add_int
    dsimp only
    rw [push32_eip]
    have harith : (emu.eip : Int) + (get_sign_code32 emu 1 + 5)
        = (emu.eip : Int) + 5 + get_sign_code32 emu 1 := by ring
    rw [harith]
  · show get_register32 (eip_add_int (push32 emu ((emu.eip + 5) % UINT32_LIMIT))
        (get_sign_code32 emu 1 + 5)) ESP = _
    rw [get_register32_eip_add_int]
    exact hp.1
  · show get_memory32 (eip_add_int (push32 emu ((emu.eip + 5) % UINT32_LIMIT))
        (get_sign_code32 emu 1 + 5)) (get_register32 emu ESP - 4) = _
    rw [get_memory32_eip_add_int, hp.2.1]
    exact hv
  · show (pop32 (eip_add_int (push32 emu ((emu.eip + 5) % UINT32_LIMIT))
        (get_sign_code32 emu 1 + 5))).1 = _
    rw [pop32_fst, get_memory32_eip_add_int, get_register32_eip_add_int, ← pop32_fst,
      hp.2.2.1]
    exact hv
  · rw [call_rel32_eq]
    unfold ret
    dsimp only
    rw [get_register32_eip_update]
    have h224 := hp.2.2.2
    rw [pop32_snd, get_register32_set_register32_same] at h224
    rw [pop32_snd, get_register32_set_register32_same, get_register32_eip_add_int]
    exact h224

/- A state with a valid stack for the call/ret witness: ESP = 64, eip 0,
   displacement bytes all zero. -/
def emu_w6 : Emulator :=
  { eflags := 0, registers := fun r => if r = ESP then 64 else 0,
    memory := fun _ => 0, eip := 0 }

set_option maxRecDepth 4096 in
/-- Witness for C6 at a concrete state with ESP = 64 and eip = 0: the call
stores 5 at stack top 60 and ret returns with eip 5 and ESP 64. -/
theorem C6_call_ret_witness :
    (4 ≤ get_register32 emu_w6 ESP ∧ get_register32 emu_w6 ESP < UINT32_LIMIT ∧
      emu_w6.eip + 5 < UINT32_LIMIT) ∧
    get_memory32 (call_rel32 emu_w6) (get_register32 emu_w6 ESP - 4) = emu_w6.eip + 5 ∧
    (ret (call_rel32 emu_w6)).eip = emu_w6.eip + 5 ∧
    get_register32 (ret (call_rel32 emu_w6)) ESP = get_register32 emu_w6 ESP := by
  have h := C6_call_ret emu_w6 (by decide) (by decide) (by decide)
  exact ⟨⟨by decide, by decide, by decide⟩, h.2.2.1, h.2.2.2.1, h.2.2.2.2⟩

/-- C4 (amended): the decoder consumes the ModR/M byte plus exactly the
displacement bytes selected by the mod field (none for mod 0 or 3, one
for mod 1, four for mod 2) and itself advances eip by the bytes it
consumed, touching nothing else; the calling handler adds only the opcode
and immediate bytes, never a decoder byte count. -/
theorem C4_parse_modrm_advances (emu : Emulator) :
    ((parse_modrm emu).2.eip
        = (emu.eip + modrm_length (get_code8 emu 0)) % UINT32_LIMIT) ∧
    (modrm_length (get_code8 emu 0)
        = 1 + (if get_code8 emu 0 / 64 = 1 then 1
            else if get_code8 emu 0 / 64 = 2 then 4 else 0)) ∧
    ((parse_modrm emu).2.registers = emu.registers ∧
      (parse_modrm emu).2.memory = emu.memory ∧
      (parse_modrm emu).2.eflags = emu.eflags) := by
  refine ⟨parse_modrm_eip emu, ?_, parse_modrm_registers emu, parse_modrm_memory emu,
    parse_modrm_eflags emu⟩
  unfold modrm_length
  by_cases h1 : get_code8 emu 0 / 64 = 1
  · simp [h1]
  · by_cases h2 : get_code8 emu 0 / 64 = 2
    · simp [h1, h2]
    · simp [h1, h2]

/-- Modelled from the spec: the decoder contract in the exact words of the
claim — same ModR/M split and displacement sizes, but *not* advancing eip,
returning instead the number of bytes consumed for the caller to add (a
second definition kept only to compare the claim's contract against the
handlers in src/). -/
def parse_modrm_spec_words (emu : Emulator) : ModRM × Nat :=
  let code := get_code8 emu 0
  let md := code / 64
  let op := code / 8 % 8
  let rm := code % 8
  if md = 1 then
    (⟨md, op, rm, get_sign_code8 emu 1⟩, 2)
  else if md = 2 then
    (⟨md, op, rm, get_sign_code32 emu 1⟩, 5)
  else
    (⟨md, op, rm, 0⟩, 1)

/- The mov rm32,imm32 handler body exactly as it stands in src/ (advance
   one byte for the opcode, decode, fetch the immediate at offset 0,
   advance four bytes) but with the claim's non-advancing decoder in
   place of parse_modrm.  The src body adds no decoder byte count, so
   under the claim's contract eip advances by 5 on every encoding and
   the immediate is fetched at the ModR/M byte's own position. -/
def mov_rm32_imm32_claim_decoder (emu : Emulator) : Emulator :=
  let emu1 : Emulator := { emu with eip := (emu.eip + 1) % UINT32_LIMIT }
  let p := parse_modrm_spec_words emu1
  let value := get_code32 emu1 0
  let emu3 : Emulator := { emu1 with eip := (emu1.eip + 4) % UINT32_LIMIT }
  set_rm32 emu3 p.1 value

/- A register-direct mov rm32,imm32 encoding: C7 C0 44 33 22 11 — the
   ModR/M byte 0xC0 selects mod 3, reg-op 0, rm EAX and the immediate
   is 0x11223344. -/
def emu_w4 : Emulator :=
  { eflags := 0, registers := fun _ => 0,
    memory := fun a =>
      if a = 0 then 0xC7 else if a = 1 then 0xC0 else if a = 2 then 0x44
      else if a = 3 then 0x33 else if a = 4 then 0x22 else if a = 5 then 0x11 else 0,
    eip := 0 }

set_option maxRecDepth 4096 in
/-- Counterexample to C4 as stated: under the claim's contract the decoder
does not advance eip and the caller adds the consumed bytes — but the
mov rm32,imm32 caller in src/ adds no decoder byte count, so composing
its body with the claim's non-advancing decoder advances eip by 5 instead
of the encoded length 6 on a register-direct encoding and loads the bytes
at the ModR/M byte's position instead of the immediate; the modelled
decoder, which the src/ callers do agree with, advances eip from 0 to 1
on the same state, contradicting "does not itself advance eip". -/
theorem C4_counterexample :
    (mov_rm32_imm32_claim_decoder emu_w4).eip = 5 ∧
    (mov_rm32_imm32 emu_w4).eip = 6 ∧
    ((mov_rm32_imm32_claim_decoder emu_w4).eip
        ≠ emu_w4.eip + 1 + modrm_length (get_code8 emu_w4 1) + 4) ∧
    get_register32 (mov_rm32_imm32 emu_w4) 0 = 0x11223344 ∧
    get_register32 (mov_rm32_imm32_claim_decoder emu_w4) 0 = 0x223344C0 ∧
    (parse_modrm { emu_w4 with eip := 1 }).2.eip = 2 ∧
    emu_w4.eip + 1 = 1 := by
  refine ⟨by decide, by decide, by decide, by decide, by decide, by decide, by decide⟩
